import Mathlib

/-
Verification development for the probe-lbcdn-go health probe.

Shallow embedding conventions:
- Go float64 values are modelled as exact rationals; the numeric facts
  proved here involve only exactly representable values and field laws.
- Go uint64 values are modelled as natural numbers below 2^64, with the
  wrapping subtraction and addition made explicit as mod 2^64 operations.
- Go time.Duration (int64 nanoseconds) is modelled as an integer number
  of nanoseconds; time.Time instants used by the bandwidth collector are
  modelled as rational numbers of seconds.
- File reads and goroutine scheduling are outside the embedding: each
  function is modelled on the byte content it reads, or on the parsed
  values, together with the explicit package-level state it mutates.
-/

namespace Probe

/-- Wrapping subtraction of two uint64 values (arguments are assumed to be
below 2^64, as every Go uint64 value is). Models the Go expression a - b
at type uint64. -/
def u64sub (a b : ℕ) : ℕ := (a + 2 ^ 64 - b) % 2 ^ 64

/-- Wrapping addition of two uint64 values. Models the Go expression a + b
at type uint64. -/
def u64add (a b : ℕ) : ℕ := (a + b) % 2 ^ 64

/-- Mirrors the struct MetricStatus of main.go: one published metric reading
with its current value, effective maximum and "OK"/"KO" status. -/
structure MetricStatus where
  Current : ℚ
  Max : ℚ
  Status : String
deriving DecidableEq

/-- Mirrors the struct cpuMetrics of cpu_metric.go. -/
structure cpuMetrics where
  Usage : ℚ
  IOWait : ℚ
  IRQ : ℚ
  SoftIRQ : ℚ
deriving DecidableEq

/-- Mirrors the struct cpuSnapshot of cpu_metric.go: the eight counters of
the aggregate cpu line of /proc/stat, as uint64 values. -/
structure cpuSnapshot where
  user : ℕ
  nice : ℕ
  system : ℕ
  idle : ℕ
  iowait : ℕ
  irq : ℕ
  softirq : ℕ
  steal : ℕ
deriving DecidableEq

/-- Mirrors the package-level variables cpuCache and cpuInitialized of
cpu_metric.go, which getCPUMetrics reads and updates under cpuCacheMutex. -/
structure CpuState where
  cpuInitialized : Bool
  cpuCache : cpuSnapshot
deriving DecidableEq

/-- Mirrors the struct bandwidthSnapshot of the network collector: previous
total byte counter (uint64) and its timestamp (modelled in seconds). -/
structure bandwidthSnapshot where
  totalBytes : ℕ
  timestamp : ℚ
deriving DecidableEq

/-- Mirrors getWarmupFactor of cpu_metric.go. Both arguments are modelled as
int64 nanosecond counts (Go time.Duration); Duration.Seconds divides the
nanosecond count by 10^9, which is exact in the rational model. -/
def getWarmupFactor (elapsed duration : ℤ) : ℚ :=
  if elapsed ≥ duration then 1
  else ((elapsed : ℚ) / 10 ^ 9) / ((duration : ℚ) / 10 ^ 9)

/-- Mirrors the warmup factor selection at the top of collectCPUMetric:
factor 1.0 when warmup is disabled, getWarmupFactor otherwise. -/
def warmupFactor (enabled : Bool) (elapsed duration : ℤ) : ℚ :=
  if enabled then getWarmupFactor elapsed duration else 1

/-- Mirrors the computational core of getCPUMetrics of cpu_metric.go after a
successful read and parse of /proc/stat: given the freshly parsed counters
and the cached state, it returns the metrics value and the updated state.
The first successful call stores the baseline and returns zeros; later calls
take wrapping uint64 deltas against the baseline, chain-add them into
totalDelta, replace the baseline, and derive the four percentages (zero when
totalDelta is zero). -/
def getCPUMetrics (cur : cpuSnapshot) (st : CpuState) : cpuMetrics × CpuState :=
  if !st.cpuInitialized then (⟨0, 0, 0, 0⟩, ⟨true, cur⟩)
  else
    let userDelta := u64sub cur.user st.cpuCache.user
    let niceDelta := u64sub cur.nice st.cpuCache.nice
    let systemDelta := u64sub cur.system st.cpuCache.system
    let idleDelta := u64sub cur.idle st.cpuCache.idle
    let iowaitDelta := u64sub cur.iowait st.cpuCache.iowait
    let irqDelta := u64sub cur.irq st.cpuCache.irq
    let softirqDelta := u64sub cur.softirq st.cpuCache.softirq
    let stealDelta := u64sub cur.steal st.cpuCache.steal
    let totalDelta :=
      u64add (u64add (u64add (u64add (u64add (u64add (u64add userDelta niceDelta)
        systemDelta) idleDelta) iowaitDelta) irqDelta) softirqDelta) stealDelta
    let newSt : CpuState := ⟨true, cur⟩
    if totalDelta = 0 then (⟨0, 0, 0, 0⟩, newSt)
    else
      (⟨((u64add (u64add userDelta niceDelta) systemDelta : ℕ) : ℚ) / (totalDelta : ℚ) * 100,
        (iowaitDelta : ℚ) / (totalDelta : ℚ) * 100,
        (irqDelta : ℚ) / (totalDelta : ℚ) * 100,
        (softirqDelta : ℚ) / (totalDelta : ℚ) * 100⟩, newSt)

/-- Mirrors the computational core of getNetworkBandwidth of the network
collector after a successful read of /proc/net/dev: given the cached
snapshot for the interface (none on first observation), the current uint64
total byte counter and the current time, it returns the byte rate and the
replacement snapshot. The cache is replaced before the degenerate-interval
check, exactly as in the source. -/
def getNetworkBandwidth (cache : Option bandwidthSnapshot) (currentTotalBytes : ℕ)
    (currentTime : ℚ) : ℚ × bandwidthSnapshot :=
  match cache with
  | none => (0, ⟨currentTotalBytes, currentTime⟩)
  | some snapshot =>
    let bytesDelta := u64sub currentTotalBytes snapshot.totalBytes
    let timeDelta := currentTime - snapshot.timestamp
    let newSnap : bandwidthSnapshot := ⟨currentTotalBytes, currentTime⟩
    if timeDelta ≤ 0 then (0, newSnap)
    else ((bytesDelta : ℚ) / timeDelta, newSnap)

/-- Mirrors the body of collectCPUMetric of cpu_metric.go for one tick:
warmup-scaled effective maxima and the four published entries. -/
def cpuTickEntries (metrics : cpuMetrics) (maxCPU maxIOWait maxIRQ maxSoftIRQ : ℚ)
    (warmupEnabled : Bool) (elapsed duration : ℤ) : List (String × MetricStatus) :=
  let wf := warmupFactor warmupEnabled elapsed duration
  let effectiveMaxCPU := maxCPU * wf
  let effectiveMaxIOWait := maxIOWait * wf
  let effectiveMaxIRQ := maxIRQ * wf
  let effectiveMaxSoftIRQ := maxSoftIRQ * wf
  [("cpu_usage", ⟨metrics.Usage, effectiveMaxCPU,
      if metrics.Usage > effectiveMaxCPU then "KO" else "OK"⟩),
   ("cpu_iowait", ⟨metrics.IOWait, effectiveMaxIOWait,
      if metrics.IOWait > effectiveMaxIOWait then "KO" else "OK"⟩),
   ("cpu_irq", ⟨metrics.IRQ, effectiveMaxIRQ,
      if metrics.IRQ > effectiveMaxIRQ then "KO" else "OK"⟩),
   ("cpu_softirq", ⟨metrics.SoftIRQ, effectiveMaxSoftIRQ,
      if metrics.SoftIRQ > effectiveMaxSoftIRQ then "KO" else "OK"⟩)]

/-- Mirrors the body of collectMemoryMetric of memory_metric.go for one tick:
the single published memory entry. -/
def collectMemoryEntry (memUsage maxMemory : ℚ) (warmupEnabled : Bool)
    (elapsed duration : ℤ) : String × MetricStatus :=
  let effectiveMax :=
    if warmupEnabled then maxMemory * getWarmupFactor elapsed duration else maxMemory
  ("memory", ⟨memUsage, effectiveMax, if memUsage > effectiveMax then "KO" else "OK"⟩)

/-- Mirrors sanitizePath of the disk collector. -/
def sanitizePath (path : String) : String :=
  if path = "/" then "root"
  else String.mk ((path.data.drop 1).map (fun ch => if ch = '/' then '_' else ch))

/-- Mirrors the body of collectDiskMetric for one tick: given the usage
reading obtained for each configured path, the published entries. -/
def diskTickEntries (diskReadings : List (String × ℚ)) (maxDisk : ℚ)
    (warmupEnabled : Bool) (elapsed duration : ℤ) : List (String × MetricStatus) :=
  let effectiveMax :=
    if warmupEnabled then maxDisk * getWarmupFactor elapsed duration else maxDisk
  diskReadings.map (fun pr =>
    ("disk_" ++ sanitizePath pr.1,
     ⟨pr.2, effectiveMax, if pr.2 > effectiveMax then "KO" else "OK"⟩))

/-- Mirrors the connection-count publication of collectNetworkMetric. -/
def networkConnectionsEntry (connections maxConnections : ℚ) (warmupEnabled : Bool)
    (elapsed duration : ℤ) : String × MetricStatus :=
  let effectiveMax :=
    if warmupEnabled then maxConnections * getWarmupFactor elapsed duration
    else maxConnections
  ("network_connections",
   ⟨connections, effectiveMax, if connections > effectiveMax then "KO" else "OK"⟩)

/-- Mirrors the per-interface bandwidth publication of collectNetworkMetric:
the status is always "OK" and the maximum field is recorded as zero. -/
def networkBandwidthEntry (iface : String) (bytesPerSec : ℚ) : String × MetricStatus :=
  ("network_" ++ iface ++ "_bandwidth", ⟨bytesPerSec, 0, "OK"⟩)

/-- Mirrors the body of collectNetworkMetric for one tick: the connection
entry followed by one bandwidth entry per configured interface. -/
def networkTickEntries (connections maxConnections : ℚ) (warmupEnabled : Bool)
    (elapsed duration : ℤ) (bandwidthReadings : List (String × ℚ)) :
    List (String × MetricStatus) :=
  networkConnectionsEntry connections maxConnections warmupEnabled elapsed duration ::
    bandwidthReadings.map (fun pr => networkBandwidthEntry pr.1 pr.2)

/-- Mirrors the inner loop of getNetworkConnections: scan a connection-table
line for an occurrence of the four characters space, 0, 1, space, exactly as
the Go loop compares line[j:j+4] with " 01 " for j from 0, stopping at the
first match. -/
def lineHas01 : List Char → Bool
  | a :: b :: c :: d :: rest =>
    if a = ' ' ∧ b = '0' ∧ c = '1' ∧ d = ' ' then true
    else lineHas01 (b :: c :: d :: rest)
  | _ => false

/-- Mirrors the outer loop of getNetworkConnections: walk the file content
character by character, and each time a newline is reached test the line
accumulated since the previous newline; text after the last newline is never
tested, exactly as in the index-based Go loop. -/
def countEst : List Char → List Char → ℕ
  | _, [] => 0
  | cur, c :: rest =>
    if c = '\n' then (if lineHas01 cur then 1 else 0) + countEst [] rest
    else countEst (cur ++ [c]) rest

/-- Mirrors getNetworkConnections of the network collector: the count over
the IPv4 table content plus, when the IPv6 table was readable, the count
over the IPv6 table content (the Go function returns this count converted
to float64). -/
def getNetworkConnections (tcp4 : String) (tcp6 : Option String) : ℕ :=
  countEst [] tcp4.data +
    match tcp6 with
    | some data6 => countEst [] data6.data
    | none => 0

/-- Declarative line splitter used to state what getNetworkConnections
computes: the segments of the content that are terminated by a newline, in
order, with any trailing segment after the last newline dropped. -/
def splitNl : List Char → List (List Char)
  | [] => []
  | c :: rest =>
    if c = '\n' then [] :: splitNl rest
    else
      match splitNl rest with
      | [] => []
      | l :: ls => (c :: l) :: ls

/-- Whitespace-field splitter used by the specification reading of the
connection tables: the maximal space-free words of a line, in order. -/
def splitWords : List Char → List (List Char)
  | [] => []
  | c :: rest =>
    if c = ' ' then splitWords rest
    else
      match splitWords rest, rest with
      | ws, ' ' :: _ => [c] :: ws
      | [], _ => [[c]]
      | w :: ws, _ => (c :: w) :: ws

/-- Follows the wording of the spec, for comparison with the implementation:
counts the table entries (the newline-terminated lines after the header
line) whose state field (the fourth whitespace-separated field, st in the
kernel header) equals the ESTABLISHED code 01, for the IPv4 table plus the
IPv6 table when readable. -/
def specEstablishedConnections (tcp4 : String) (tcp6 : Option String) : ℕ :=
  ((splitNl tcp4.data).drop 1).countP
      (fun l => (splitWords l).get? 3 == some ['0', '1']) +
    match tcp6 with
    | some data6 =>
      ((splitNl data6.data).drop 1).countP
        (fun l => (splitWords l).get? 3 == some ['0', '1'])
    | none => 0

/-- Rounding of a rational to an integer, half to even: the rounding Go
applies when formatting a float64 with strconv-backed %.Nf verbs, applied
here to the exact rational value. -/
def roundHalfEven (q : ℚ) : ℤ :=
  let f := ⌊q⌋
  let frac := q - (f : ℚ)
  if frac < 1 / 2 then f
  else if 1 / 2 < frac then f + 1
  else if f % 2 = 0 then f else f + 1

/-- Rendering of a rational with no decimal place, modelling the Go verb
%.0f on the exact value. -/
def formatF0 (q : ℚ) : String := toString (roundHalfEven q)

/-- Rendering of a nonnegative rational with exactly one decimal place,
modelling the Go verb %.1f on the exact value. -/
def formatF1 (q : ℚ) : String :=
  let n := roundHalfEven (q * 10)
  toString (n / 10) ++ "." ++ toString (n % 10)

/-- Mirrors the suffix loop of formatBandwidth: starting with divisor 1000
and the suffix list k, M, G, T, P, return at the first suffix for which the
value is below divisor times 1000, or at the last suffix. -/
def formatBandwidthLoop (bytesPerSec : ℚ) (dv : ℚ) : List String → String
  | [] => formatF0 bytesPerSec
  | sfx :: rest =>
    if bytesPerSec < dv * 1000 ∨ rest = [] then formatF1 (bytesPerSec / dv) ++ sfx
    else formatBandwidthLoop bytesPerSec (dv * 1000) rest

/-- Mirrors formatBandwidth of the network collector: values below 1000 are
rendered with no decimal place and no suffix, larger values are scaled by
decimal (1000-based) unit prefixes and rendered with one decimal place. -/
def formatBandwidth (bytesPerSec : ℚ) : String :=
  if bytesPerSec < 1000 then formatF0 bytesPerSec
  else formatBandwidthLoop bytesPerSec 1000 ["k", "M", "G", "T", "P"]

/-- Mirrors the overall-status loop of healthHandler in main.go over the
snapshot copy of the metric cache: "KO" as soon as one entry is "KO",
otherwise "OK". -/
def healthOverallStatus : List (String × MetricStatus) → String
  | [] => "OK"
  | p :: rest => if p.2.Status = "KO" then "KO" else healthOverallStatus rest

/-- Mirrors the HTTP status selection of healthHandler: 503 when the overall
status is "KO", 200 otherwise. -/
def healthStatusCode (metrics : List (String × MetricStatus)) : ℕ :=
  if healthOverallStatus metrics = "KO" then 503 else 200

/-- Matches a literal sequence of characters at the head of the input and
returns the remainder, or none on a mismatch. -/
def dropLit : List Char → List Char → Option (List Char)
  | [], cs => some cs
  | _ :: _, [] => none
  | p :: ps, c :: cs => if c = p then dropLit ps cs else none

/-- Skips a run of space characters, modelling how a space in a Go Sscanf
format consumes a run of spaces in the input. -/
def skipSpaces (cs : List Char) : List Char := cs.dropWhile (fun c => c = ' ')

/-- Accumulates a run of decimal digits into a natural number. -/
def digitsAux : ℕ → List Char → ℕ × List Char
  | acc, [] => (acc, [])
  | acc, c :: cs =>
    if c.isDigit then digitsAux (acc * 10 + (c.toNat - 48)) cs else (acc, c :: cs)

/-- Parses a nonempty run of decimal digits, modelling the Sscanf verb %d
reading into an unsigned integer; fails when the input does not start with
a digit. -/
def scanNat (cs : List Char) : Option (ℕ × List Char) :=
  match cs with
  | [] => none
  | c :: _ => if c.isDigit then some (digitsAux 0 cs) else none

/-- Models the Go call fmt.Sscanf(lines[i:], label ++ " %d kB") as used in
the fallback loop of getMemoryUsage: the scanned value when the label, a
run of spaces and a number are present, none otherwise. -/
def scanLabelNum (label : String) (cs : List Char) : Option ℕ :=
  match dropLit label.data cs with
  | none => none
  | some r => (scanNat (skipSpaces r)).map Prod.fst

/-- Models the first fmt.Sscanf of getMemoryUsage with the format
MemTotal: %d kB, newline, MemFree: %*d kB, newline, MemAvailable: %d kB.
Returns the value assigned to memTotal (assigned as soon as its verb is
reached, even when a later part of the format fails), the value assigned to
memAvailable, and whether the whole format matched (a nil Sscanf error). -/
def firstScan (cs : List Char) : Option ℕ × Option ℕ × Bool :=
  match dropLit "MemTotal:".data cs with
  | none => (none, none, false)
  | some r1 =>
    match scanNat (skipSpaces r1) with
    | none => (none, none, false)
    | some (memTotal, r2) =>
      match dropLit "kB".data (skipSpaces r2) with
      | none => (some memTotal, none, false)
      | some r3 =>
        match dropLit "\n".data r3 with
        | none => (some memTotal, none, false)
        | some r4 =>
          match dropLit "MemFree:".data r4 with
          | none => (some memTotal, none, false)
          | some r5 =>
            match scanNat (skipSpaces r5) with
            | none => (some memTotal, none, false)
            | some (_, r6) =>
              match dropLit "kB".data (skipSpaces r6) with
              | none => (some memTotal, none, false)
              | some r7 =>
                match dropLit "\n".data r7 with
                | none => (some memTotal, none, false)
                | some r8 =>
                  match dropLit "MemAvailable:".data r8 with
                  | none => (some memTotal, none, false)
                  | some r9 =>
                    match scanNat (skipSpaces r9) with
                    | none => (some memTotal, none, false)
                    | some (memAvailable, r10) =>
                      match dropLit "kB".data (skipSpaces r10) with
                      | none => (some memTotal, some memAvailable, false)
                      | some _ => (some memTotal, some memAvailable, true)

/-- Models the Go slice expression lines[i:j] for j = i + width, defined
only under the bound check the caller performs. -/
def strSlice (cs : List Char) (i j : ℕ) : List Char := (cs.drop i).take (j - i)

/-- Outcome of the fallback loop of getMemoryUsage: either the final values
of memTotal and memAvailable, or oob, which records that the loop evaluated
lines[i:i+9] with i+9 beyond the end of the string, a Go runtime panic
(slice bounds out of range). -/
inductive FallOut where
  | vals (memTotal memAvailable : ℕ)
  | oob
deriving DecidableEq

/-- Mirrors the fallback loop of getMemoryUsage of memory_metric.go: i runs
from 0 while i is below the length; the MemTotal comparison slices
lines[i:i+9] with no bound guard, so any iteration with i+9 beyond the end
is a runtime panic; the MemAvailable comparison is guarded by
i+13 being within bounds and ends the loop when it matches. The fuel
argument is the number of remaining iterations, length minus i at entry. -/
def fallbackScan (cs : List Char) : ℕ → ℕ → ℕ → ℕ → FallOut
  | 0, _, memTotal, memAvailable => .vals memTotal memAvailable
  | fuel + 1, i, memTotal, memAvailable =>
    if i + 9 > cs.length then .oob
    else
      let memTotal1 :=
        if strSlice cs i (i + 9) = "MemTotal:".data then
          match scanLabelNum "MemTotal:" (cs.drop i) with
          | some v => v
          | none => memTotal
        else memTotal
      if i + 13 ≤ cs.length ∧ strSlice cs i (i + 13) = "MemAvailable:".data then
        let memAvailable1 :=
          match scanLabelNum "MemAvailable:" (cs.drop i) with
          | some v => v
          | none => memAvailable
        .vals memTotal1 memAvailable1
      else fallbackScan cs fuel (i + 1) memTotal1 memAvailable

/-- Result of getMemoryUsage on a given content: a usage percentage, the
parse-failure error return, or oob for the runtime panic of the unguarded
slice in the fallback loop. -/
inductive MemResult where
  | ok (memPercent : ℚ)
  | err
  | oob
deriving DecidableEq

/-- Mirrors getMemoryUsage of memory_metric.go on the byte content read from
/proc/meminfo: the strict three-line scan, then on its failure the fallback
search loop, then the zero-total guard and the percentage
(total minus available, a uint64 subtraction, over total, times 100). -/
def getMemoryUsage (content : String) : MemResult :=
  let lines := content.data
  match firstScan lines with
  | (t0, a0, okFlag) =>
    let memTotal := t0.getD 0
    let memAvailable := a0.getD 0
    let final :=
      if okFlag then FallOut.vals memTotal memAvailable
      else fallbackScan lines lines.length 0 memTotal memAvailable
    match final with
    | .oob => .oob
    | .vals t a =>
      if t = 0 then .err
      else .ok (((u64sub t a : ℕ) : ℚ) / (t : ℚ) * 100)

/-- Helper: the status string each collector computes is "KO" exactly when
the current value strictly exceeds the maximum. -/
theorem status_ko_iff (cur mx : ℚ) :
    ((if cur > mx then ("KO" : String) else "OK") = "KO") ↔ mx < cur := by
  split_ifs with h
  · exact ⟨fun _ => h, fun _ => rfl⟩
  · constructor
    · intro hh; exact absurd hh (by decide)
    · intro hh; exact absurd hh h

/-- Helper: the overall status of the health handler is "KO" exactly when
some entry of the snapshot has status "KO". -/
theorem healthOverallStatus_ko_iff (ms : List (String × MetricStatus)) :
    healthOverallStatus ms = "KO" ↔ ∃ p ∈ ms, p.2.Status = "KO" := by
  induction ms with
  | nil =>
    simp only [healthOverallStatus]
    constructor
    · intro h; exact absurd h (by decide)
    · rintro ⟨p, hp, _⟩; exact absurd hp (List.not_mem_nil p)
  | cons q rest ih =>
    simp only [healthOverallStatus]
    split_ifs with h
    · constructor
      · intro _; exact ⟨q, List.mem_cons_self q rest, h⟩
      · intro _; rfl
    · rw [ih]
      constructor
      · rintro ⟨p, hp, hs⟩; exact ⟨p, List.mem_cons_of_mem q hp, hs⟩
      · rintro ⟨p, hp, hs⟩
        rcases List.mem_cons.mp hp with rfl | hp2
        · exact absurd hs h
        · exact ⟨p, hp2, hs⟩

/-- Helper: the overall status is always one of "OK" and "KO". -/
theorem healthOverallStatus_ok_or_ko (ms : List (String × MetricStatus)) :
    healthOverallStatus ms = "OK" ∨ healthOverallStatus ms = "KO" := by
  induction ms with
  | nil => exact Or.inl rfl
  | cons q rest ih =>
    simp only [healthOverallStatus]
    split_ifs with h
    · exact Or.inr rfl
    · exact ih

/-- C6: the health endpoint aggregation over a snapshot copy of the store is
"KO" iff at least one copied entry is "KO" (an empty snapshot is "OK"), and
the handler writes HTTP 503 exactly when the overall status is "KO" and 200
exactly when it is "OK". -/
theorem c6_health_aggregation (metrics : List (String × MetricStatus)) :
    (healthOverallStatus metrics = "KO" ↔ ∃ p ∈ metrics, p.2.Status = "KO") ∧
    (healthOverallStatus metrics = "OK" ↔ ¬∃ p ∈ metrics, p.2.Status = "KO") ∧
    healthOverallStatus [] = "OK" ∧
    (healthStatusCode metrics = 503 ↔ healthOverallStatus metrics = "KO") ∧
    (healthStatusCode metrics = 200 ↔ healthOverallStatus metrics = "OK") := by
  have hko := healthOverallStatus_ko_iff metrics
  have hor := healthOverallStatus_ok_or_ko metrics
  refine ⟨hko, ?_, rfl, ?_, ?_⟩
  · constructor
    · intro h hx
      rw [← hko] at hx
      rw [h] at hx
      exact absurd hx (by decide)
    · intro h
      rcases hor with h1 | h1
      · exact h1
      · exact absurd (hko.mp h1) h
  · unfold healthStatusCode
    split_ifs with h
    · exact ⟨fun _ => h, fun _ => rfl⟩
    · constructor
      · intro hh; exact absurd hh (by decide)
      · intro hh; exact absurd hh h
  · unfold healthStatusCode
    split_ifs with h
    · constructor
      · intro hh; exact absurd hh (by decide)
      · intro hh; rw [hh] at h; exact absurd h (by decide)
    · constructor
      · intro _
        rcases hor with h1 | h1
        · exact h1
        · exact absurd h1 h
      · intro _; rfl

/-- C3: the first successful invocation of a delta-based metric returns an
all-zero reading while storing the baseline: getCPUMetrics with no prior
snapshot stores the eight counters and returns zero usage, iowait, irq and
softirq, and getNetworkBandwidth on the first observation of an interface
stores the byte total and timestamp and returns rate zero. -/
theorem c3_cold_start (cur : cpuSnapshot) (st : CpuState) (b2 : ℕ) (t2 : ℚ)
    (h : st.cpuInitialized = false) :
    getCPUMetrics cur st = (⟨0, 0, 0, 0⟩, ⟨true, cur⟩) ∧
    getNetworkBandwidth none b2 t2 = (0, ⟨b2, t2⟩) := by
  constructor
  · simp [getCPUMetrics, h]
  · rfl

/-- Witness for c3_cold_start at a concrete uninitialized state. -/
theorem c3_witness :
    (⟨false, ⟨0, 0, 0, 0, 0, 0, 0, 0⟩⟩ : CpuState).cpuInitialized = false ∧
    getCPUMetrics ⟨1, 2, 3, 4, 5, 6, 7, 8⟩ ⟨false, ⟨0, 0, 0, 0, 0, 0, 0, 0⟩⟩ =
      (⟨0, 0, 0, 0⟩, ⟨true, ⟨1, 2, 3, 4, 5, 6, 7, 8⟩⟩) ∧
    getNetworkBandwidth none 42 10 = (0, ⟨42, 10⟩) :=
  ⟨rfl,
   (c3_cold_start ⟨1, 2, 3, 4, 5, 6, 7, 8⟩ ⟨false, ⟨0, 0, 0, 0, 0, 0, 0, 0⟩⟩ 42 10 rfl).1,
   (c3_cold_start ⟨1, 2, 3, 4, 5, 6, 7, 8⟩ ⟨false, ⟨0, 0, 0, 0, 0, 0, 0, 0⟩⟩ 42 10 rfl).2⟩

/-- C5: with a stored sample (b1, t1) and a current sample (b2, t2), b2 at
least b1 and both in uint64 range, a positive elapsed time yields rate
(b2 - b1) / (t2 - t1), a zero or negative elapsed time yields rate 0, and
in either case the stored sample is replaced by (b2, t2). -/
theorem c5_bandwidth_rate (b1 b2 : ℕ) (t1 t2 : ℚ) (hb : b1 ≤ b2) (hb2 : b2 < 2 ^ 64) :
    (t1 < t2 →
      getNetworkBandwidth (some ⟨b1, t1⟩) b2 t2 =
        (((b2 - b1 : ℕ) : ℚ) / (t2 - t1), ⟨b2, t2⟩)) ∧
    (t2 ≤ t1 → getNetworkBandwidth (some ⟨b1, t1⟩) b2 t2 = (0, ⟨b2, t2⟩)) := by
  have hsub : u64sub b2 b1 = b2 - b1 := by simp only [u64sub]; omega
  constructor
  · intro ht
    have hpos : ¬(t2 - t1 ≤ 0) := not_le.mpr (sub_pos.mpr ht)
    simp only [getNetworkBandwidth, if_neg hpos, hsub]
  · intro ht
    have hnp : t2 - t1 ≤ 0 := sub_nonpos.mpr ht
    simp only [getNetworkBandwidth, if_pos hnp]

/-- Witness for c5_bandwidth_rate: 200 bytes over 2 seconds is 100 bytes per
second, and the stored sample is replaced. -/
theorem c5_witness :
    getNetworkBandwidth (some ⟨100, 0⟩) 300 2 = (100, ⟨300, 2⟩) := by
  have h := (c5_bandwidth_rate 100 300 0 2 (by norm_num) (by norm_num)).1 (by norm_num)
  rw [h]
  norm_num [Prod.mk.injEq]

/-- C10: when the byte counter decreases between two samples, the uint64
subtraction wraps: for positive elapsed time the returned rate is
(b2 - b1 + 2^64) / (t2 - t1), a positive value, not zero. -/
theorem c10_counter_reset (b1 b2 : ℕ) (t1 t2 : ℚ) (hb : b2 < b1) (hb1 : b1 < 2 ^ 64)
    (ht : t1 < t2) :
    (getNetworkBandwidth (some ⟨b1, t1⟩) b2 t2).1 =
      ((b2 + 2 ^ 64 - b1 : ℕ) : ℚ) / (t2 - t1) ∧
    0 < (getNetworkBandwidth (some ⟨b1, t1⟩) b2 t2).1 := by
  have hsub : u64sub b2 b1 = b2 + 2 ^ 64 - b1 := by simp only [u64sub]; omega
  have hpos : ¬(t2 - t1 ≤ 0) := not_le.mpr (sub_pos.mpr ht)
  have heq : (getNetworkBandwidth (some ⟨b1, t1⟩) b2 t2).1 =
      ((b2 + 2 ^ 64 - b1 : ℕ) : ℚ) / (t2 - t1) := by
    simp only [getNetworkBandwidth, if_neg hpos, hsub]
  refine ⟨heq, ?_⟩
  rw [heq]
  apply div_pos
  · have hlt : 0 < b2 + 2 ^ 64 - b1 := by omega
    exact_mod_cast hlt
  · exact sub_pos.mpr ht

/-- Witness for c10_counter_reset: a counter that fell from 1000 to 5 over
one second reports the wrapped delta, an enormous positive rate. -/
theorem c10_witness :
    (getNetworkBandwidth (some ⟨1000, 0⟩) 5 1).1 =
      ((5 + 2 ^ 64 - 1000 : ℕ) : ℚ) / (1 - 0) ∧
    0 < (getNetworkBandwidth (some ⟨1000, 0⟩) 5 1).1 :=
  c10_counter_reset 1000 5 0 1 (by norm_num) (by norm_num) (by norm_num)

/-- C7: evaluation of getMemoryUsage at the failing input. On the one-byte
content x the strict scan fails and the fallback loop immediately evaluates
lines[0:9] on a string of length 1, which in Go is a runtime panic (slice
bounds out of range) rather than the non-fatal error the specification
prescribes for unparsable content. -/
theorem c7_memory_oob : getMemoryUsage "x" = MemResult.oob := by rfl

/-- C9: formatBandwidth renders byte rates with decimal (1000-based) unit
prefixes, one decimal place once scaled and no decimal place below 1000. -/
theorem c9_formatBandwidth :
    formatBandwidth 500 = "500" ∧ formatBandwidth 1000 = "1.0k" ∧
    formatBandwidth 1500 = "1.5k" ∧ formatBandwidth 1000000 = "1.0M" ∧
    formatBandwidth 2500000 = "2.5M" ∧ formatBandwidth 1500000000 = "1.5G" := by
  have hr10 : roundHalfEven 10 = 10 := by rw [roundHalfEven]; norm_num
  have hr15 : roundHalfEven 15 = 15 := by rw [roundHalfEven]; norm_num
  have hr25 : roundHalfEven 25 = 25 := by rw [roundHalfEven]; norm_num
  have hr500 : roundHalfEven 500 = 500 := by rw [roundHalfEven]; norm_num
  refine ⟨?_, ?_, ?_, ?_, ?_, ?_⟩ <;>
    · simp only [formatBandwidth, formatBandwidthLoop, formatF1, formatF0]
      norm_num [hr10, hr15, hr25, hr500, List.cons_ne_nil]
      rfl

/-- Helper: below the ramp duration, the Seconds-based quotient computed by
getWarmupFactor equals the plain ratio of the two durations. -/
theorem getWarmupFactor_eq_div (e d : ℤ) (hd : 0 < d) (he : e < d) :
    getWarmupFactor e d = (e : ℚ) / (d : ℚ) := by
  rw [getWarmupFactor, if_neg (not_le.mpr he)]
  have hd0 : (d : ℚ) ≠ 0 := by exact_mod_cast hd.ne'
  field_simp

/-- C2: the factor applied to every configured maximum is 1 when warmup is
disabled; when enabled, getWarmupFactor is exactly 1 once elapsed reaches
the duration and exactly elapsed/duration before that, a value in [0, 1)
that is monotonically non-decreasing in elapsed time; and the effective
maxima published by the CPU collector are the configured maxima times this
factor. -/
theorem c2_warmup (elapsed duration : ℤ) (he : 0 ≤ elapsed) :
    warmupFactor false elapsed duration = 1 ∧
    (duration ≤ elapsed → getWarmupFactor elapsed duration = 1) ∧
    (elapsed < duration →
      getWarmupFactor elapsed duration = (elapsed : ℚ) / (duration : ℚ) ∧
      0 ≤ getWarmupFactor elapsed duration ∧ getWarmupFactor elapsed duration < 1) ∧
    (∀ e2 : ℤ, elapsed ≤ e2 →
      getWarmupFactor elapsed duration ≤ getWarmupFactor e2 duration) ∧
    (∀ (mets : cpuMetrics) (mc mio mirq msoft : ℚ),
      (cpuTickEntries mets mc mio mirq msoft true elapsed duration).map (fun p => p.2.Max) =
        [mc * getWarmupFactor elapsed duration, mio * getWarmupFactor elapsed duration,
         mirq * getWarmupFactor elapsed duration, msoft * getWarmupFactor elapsed duration]) := by
  refine ⟨rfl, ?_, ?_, ?_, ?_⟩
  · intro h
    rw [getWarmupFactor, if_pos h]
  · intro h
    have hd : 0 < duration := lt_of_le_of_lt he h
    have heq := getWarmupFactor_eq_div elapsed duration hd h
    have hdq : (0 : ℚ) < (duration : ℚ) := by exact_mod_cast hd
    refine ⟨heq, ?_, ?_⟩
    · rw [heq]
      apply div_nonneg
      · exact_mod_cast he
      · exact hdq.le
    · rw [heq, div_lt_one hdq]
      exact_mod_cast h
  · intro e2 h12
    by_cases h1 : duration ≤ elapsed
    · have h2 : duration ≤ e2 := le_trans h1 h12
      rw [getWarmupFactor, if_pos h1, getWarmupFactor, if_pos h2]
    · push_neg at h1
      have hd : 0 < duration := lt_of_le_of_lt he h1
      have hdq : (0 : ℚ) < (duration : ℚ) := by exact_mod_cast hd
      have heq := getWarmupFactor_eq_div elapsed duration hd h1
      by_cases h2 : duration ≤ e2
      · rw [heq, getWarmupFactor, if_pos h2]
        have hlt : (elapsed : ℚ) / (duration : ℚ) < 1 := by
          rw [div_lt_one hdq]
          exact_mod_cast h1
        exact hlt.le
      · push_neg at h2
        have heq2 := getWarmupFactor_eq_div e2 duration hd h2
        rw [heq, heq2, div_le_div_iff_of_pos_right hdq]
        exact_mod_cast h12
  · intro mets mc mio mirq msoft
    rfl

/-- Witness for c2_warmup: duration 100, elapsed 50 gives factor one half. -/
theorem c2_witness : (0 : ℤ) ≤ 50 ∧ getWarmupFactor 50 100 = 1 / 2 := by
  constructor
  · norm_num
  · have h := ((c2_warmup 50 100 (by norm_num)).2.2.1 (by norm_num)).1
    rw [h]
    norm_num

/-- C4: on a tick after the first with non-decreasing counters in uint64
range and total delta in range, getCPUMetrics replaces the baseline with the
new reading and returns the four percentages field-delta over total-delta
times 100, or all zeros when the total delta is zero. -/
theorem c4_cpu_deltas (prev : cpuSnapshot) (d1 d2 d3 d4 d5 d6 d7 d8 : ℕ)
    (h1 : prev.user + d1 < 2 ^ 64) (h2 : prev.nice + d2 < 2 ^ 64)
    (h3 : prev.system + d3 < 2 ^ 64) (h4 : prev.idle + d4 < 2 ^ 64)
    (h5 : prev.iowait + d5 < 2 ^ 64) (h6 : prev.irq + d6 < 2 ^ 64)
    (h7 : prev.softirq + d7 < 2 ^ 64) (h8 : prev.steal + d8 < 2 ^ 64)
    (hsum : d1 + d2 + d3 + d4 + d5 + d6 + d7 + d8 < 2 ^ 64) :
    (getCPUMetrics ⟨prev.user + d1, prev.nice + d2, prev.system + d3, prev.idle + d4,
        prev.iowait + d5, prev.irq + d6, prev.softirq + d7, prev.steal + d8⟩
        ⟨true, prev⟩).2 =
      ⟨true, ⟨prev.user + d1, prev.nice + d2, prev.system + d3, prev.idle + d4,
        prev.iowait + d5, prev.irq + d6, prev.softirq + d7, prev.steal + d8⟩⟩ ∧
    (d1 + d2 + d3 + d4 + d5 + d6 + d7 + d8 = 0 →
      (getCPUMetrics ⟨prev.user + d1, prev.nice + d2, prev.system + d3, prev.idle + d4,
          prev.iowait + d5, prev.irq + d6, prev.softirq + d7, prev.steal + d8⟩
          ⟨true, prev⟩).1 = ⟨0, 0, 0, 0⟩) ∧
    (d1 + d2 + d3 + d4 + d5 + d6 + d7 + d8 ≠ 0 →
      (getCPUMetrics ⟨prev.user + d1, prev.nice + d2, prev.system + d3, prev.idle + d4,
          prev.iowait + d5, prev.irq + d6, prev.softirq + d7, prev.steal + d8⟩
          ⟨true, prev⟩).1 =
        ⟨((d1 + d2 + d3 : ℕ) : ℚ) / ((d1 + d2 + d3 + d4 + d5 + d6 + d7 + d8 : ℕ) : ℚ) * 100,
         ((d5 : ℕ) : ℚ) / ((d1 + d2 + d3 + d4 + d5 + d6 + d7 + d8 : ℕ) : ℚ) * 100,
         ((d6 : ℕ) : ℚ) / ((d1 + d2 + d3 + d4 + d5 + d6 + d7 + d8 : ℕ) : ℚ) * 100,
         ((d7 : ℕ) : ℚ) / ((d1 + d2 + d3 + d4 + d5 + d6 + d7 + d8 : ℕ) : ℚ) * 100⟩) := by
  have hu1 : u64sub (prev.user + d1) prev.user = d1 := by simp only [u64sub]; omega
  have hu2 : u64sub (prev.nice + d2) prev.nice = d2 := by simp only [u64sub]; omega
  have hu3 : u64sub (prev.system + d3) prev.system = d3 := by simp only [u64sub]; omega
  have hu4 : u64sub (prev.idle + d4) prev.idle = d4 := by simp only [u64sub]; omega
  have hu5 : u64sub (prev.iowait + d5) prev.iowait = d5 := by simp only [u64sub]; omega
  have hu6 : u64sub (prev.irq + d6) prev.irq = d6 := by simp only [u64sub]; omega
  have hu7 : u64sub (prev.softirq + d7) prev.softirq = d7 := by simp only [u64sub]; omega
  have hu8 : u64sub (prev.steal + d8) prev.steal = d8 := by simp only [u64sub]; omega
  have hnum : u64add (u64add d1 d2) d3 = d1 + d2 + d3 := by
    simp only [u64add]; omega
  have hchain :
      u64add (u64add (u64add (u64add (u64add (d1 + d2 + d3) d4) d5) d6) d7) d8 =
        d1 + d2 + d3 + d4 + d5 + d6 + d7 + d8 := by
    simp only [u64add]; omega
  simp only [getCPUMetrics, Bool.not_true, Bool.false_eq_true, if_false,
    hu1, hu2, hu3, hu4, hu5, hu6, hu7, hu8, hnum, hchain]
  refine ⟨?_, ?_, ?_⟩
  · split_ifs <;> rfl
  · intro h0
    rw [if_pos h0]
  · intro h0
    rw [if_neg h0]

/-- Witness for c4_cpu_deltas: from a zero baseline, deltas summing to 100
give usage 20, iowait 5, irq 2 and softirq 3 percent. -/
theorem c4_witness :
    (getCPUMetrics ⟨10, 0, 10, 70, 5, 2, 3, 0⟩ ⟨true, ⟨0, 0, 0, 0, 0, 0, 0, 0⟩⟩).1 =
      ⟨20, 5, 2, 3⟩ := by
  have h := (c4_cpu_deltas ⟨0, 0, 0, 0, 0, 0, 0, 0⟩ 10 0 10 70 5 2 3 0
    (by norm_num) (by norm_num) (by norm_num) (by norm_num) (by norm_num)
    (by norm_num) (by norm_num) (by norm_num) (by norm_num)).2.2 (by norm_num)
  refine h.trans ?_
  norm_num [cpuMetrics.mk.injEq]

/-- C1, counterexample to the claim as stated: one network tick publishing a
bandwidth reading of 5 bytes per second yields the snapshot entry
network_eth0_bandwidth with Current 5, Max 0 and Status "OK", although
Current strictly exceeds Max, so Status is not "KO" iff Current > Max. -/
theorem c1_counterexample :
    (networkTickEntries 3 1000 false 0 1 [("eth0", 5)]).get? 1 =
      some ("network_eth0_bandwidth", ⟨5, 0, "OK"⟩) ∧
    (0 : ℚ) < 5 ∧ ("OK" : String) ≠ "KO" := by
  refine ⟨rfl, by norm_num, by decide⟩

/-- C1, amended: every entry published by the CPU, memory, disk and
network-connections evaluations has status "KO" iff its current value
strictly exceeds its maximum (equality giving "OK"); per-interface
bandwidth entries are the exception and are always published with status
"OK" and maximum 0, so every network-tick entry either satisfies the iff or
is such a bandwidth entry. -/
theorem c1_amended_status (mets : cpuMetrics)
    (mc mio mirq msoft mm md mconn memUsage : ℚ)
    (diskReadings : List (String × ℚ)) (conns : ℚ) (bws : List (String × ℚ))
    (en : Bool) (e d : ℤ) :
    (∀ p ∈ cpuTickEntries mets mc mio mirq msoft en e d,
       (p.2.Status = "KO" ↔ p.2.Max < p.2.Current)) ∧
    ((collectMemoryEntry memUsage mm en e d).2.Status = "KO" ↔
       (collectMemoryEntry memUsage mm en e d).2.Max <
         (collectMemoryEntry memUsage mm en e d).2.Current) ∧
    (∀ p ∈ diskTickEntries diskReadings md en e d,
       (p.2.Status = "KO" ↔ p.2.Max < p.2.Current)) ∧
    ((networkConnectionsEntry conns mconn en e d).2.Status = "KO" ↔
       (networkConnectionsEntry conns mconn en e d).2.Max <
         (networkConnectionsEntry conns mconn en e d).2.Current) ∧
    (∀ (iface : String) (r : ℚ),
       (networkBandwidthEntry iface r).2.Status = "OK" ∧
       (networkBandwidthEntry iface r).2.Max = 0) ∧
    (∀ p ∈ networkTickEntries conns mconn en e d bws,
       (p.2.Status = "KO" ↔ p.2.Max < p.2.Current) ∨
       (p.2.Status = "OK" ∧ p.2.Max = 0)) := by
  refine ⟨?_, ?_, ?_, ?_, ?_, ?_⟩
  · intro p hp
    simp only [cpuTickEntries, List.mem_cons, List.not_mem_nil, or_false] at hp
    rcases hp with rfl | rfl | rfl | rfl <;> exact status_ko_iff _ _
  · exact status_ko_iff _ _
  · intro p hp
    simp only [diskTickEntries, List.mem_map] at hp
    rcases hp with ⟨pr, _, rfl⟩
    exact status_ko_iff _ _
  · exact status_ko_iff _ _
  · intro iface r
    exact ⟨rfl, rfl⟩
  · intro p hp
    rcases List.mem_cons.mp hp with rfl | hp2
    · exact Or.inl (status_ko_iff _ _)
    · rcases List.mem_map.mp hp2 with ⟨pr, _, rfl⟩
      exact Or.inr ⟨rfl, rfl⟩

/-- Witness for c1_amended_status: the memory entry at current 95 and
maximum 90 with warmup disabled has status "KO", and 90 < 95. -/
theorem c1_amended_witness :
    ((collectMemoryEntry 95 90 false 0 1).2.Status = "KO" ↔
      (collectMemoryEntry 95 90 false 0 1).2.Max <
        (collectMemoryEntry 95 90 false 0 1).2.Current) ∧
    (collectMemoryEntry 95 90 false 0 1).2.Status = "KO" := by
  have h := (c1_amended_status ⟨0, 0, 0, 0⟩ 0 0 0 0 90 0 0 95 [] 0 [] false 0 1).2.1
  refine ⟨h, h.mpr ?_⟩
  show (if (95 : ℚ) > 90 then (90 : ℚ) else 90) < 95
  norm_num

/-- Helper: a chunk with no newline contributes no complete line. -/
theorem splitNl_no_newline (l : List Char) (h : '\n' ∉ l) : splitNl l = [] := by
  induction l with
  | nil => rfl
  | cons c t ih =>
    have hc : c ≠ '\n' := fun hc => h (hc ▸ List.mem_cons_self c t)
    have ht : '\n' ∉ t := fun hm => h (List.mem_cons_of_mem c hm)
    simp only [splitNl, if_neg hc, ih ht]

/-- Helper: unfolding of the line splitter on a non-newline head. -/
theorem splitNl_cons_ne (c : Char) (t : List Char) (hc : c ≠ '\n') :
    splitNl (c :: t) =
      match splitNl t with
      | [] => []
      | l :: ls => (c :: l) :: ls := by
  rw [splitNl, if_neg hc]

/-- Helper: a newline-free chunk followed by a newline forms the first
complete line. -/
theorem splitNl_append (cur rest : List Char) (h : '\n' ∉ cur) :
    splitNl (cur ++ '\n' :: rest) = cur :: splitNl rest := by
  induction cur with
  | nil => simp [splitNl]
  | cons c t ih =>
    have hc : c ≠ '\n' := fun hc => h (hc ▸ List.mem_cons_self c t)
    have ht : '\n' ∉ t := fun hm => h (List.mem_cons_of_mem c hm)
    rw [List.cons_append, splitNl_cons_ne c _ hc, ih ht]

/-- Helper: the index-based counting loop of getNetworkConnections computes
the number of newline-terminated lines passing the inner test, relative to
the newline-free chunk accumulated so far. -/
theorem countEst_eq (cs : List Char) : ∀ cur : List Char, '\n' ∉ cur →
    countEst cur cs = (splitNl (cur ++ cs)).countP lineHas01 := by
  induction cs with
  | nil =>
    intro cur h
    simp only [countEst, List.append_nil, splitNl_no_newline cur h, List.countP_nil]
  | cons c rest ih =>
    intro cur h
    by_cases hc : c = '\n'
    · subst hc
      rw [countEst, if_pos rfl, ih [] (List.not_mem_nil _), List.nil_append,
        splitNl_append cur rest h, List.countP_cons]
      omega
    · simp only [countEst, if_neg hc]
      have h2 : '\n' ∉ cur ++ [c] := by
        intro hm
        rcases List.mem_append.mp hm with hm1 | hm1
        · exact h hm1
        · exact hc (List.mem_singleton.mp hm1).symm
      rw [ih (cur ++ [c]) h2]
      have hassoc : (cur ++ [c]) ++ rest = cur ++ c :: rest := by simp
      rw [hassoc]

/-- Helper: the inner window scan of getNetworkConnections succeeds exactly
when the four characters space, 0, 1, space occur consecutively somewhere in
the line. -/
theorem lineHas01_iff (l : List Char) :
    lineHas01 l = true ↔ ∃ n, (l.drop n).take 4 = [' ', '0', '1', ' '] := by
  induction l with
  | nil =>
    constructor
    · intro hh
      exact absurd hh (by decide)
    · rintro ⟨n, hn⟩
      simp at hn
  | cons a t ih =>
    rcases t with _ | ⟨b, t2⟩
    · constructor
      · intro hh
        exact absurd hh (by simp [lineHas01])
      · rintro ⟨n, hn⟩
        have hlen := congrArg List.length hn
        simp [List.length_take, List.length_drop] at hlen
        omega
    rcases t2 with _ | ⟨c, t3⟩
    · constructor
      · intro hh
        exact absurd hh (by simp [lineHas01])
      · rintro ⟨n, hn⟩
        have hlen := congrArg List.length hn
        simp [List.length_take, List.length_drop] at hlen
        omega
    rcases t3 with _ | ⟨d, t4⟩
    · constructor
      · intro hh
        exact absurd hh (by simp [lineHas01])
      · rintro ⟨n, hn⟩
        have hlen := congrArg List.length hn
        simp [List.length_take, List.length_drop] at hlen
        omega
    simp only [lineHas01]
    split_ifs with hcond
    · constructor
      · intro _
        refine ⟨0, ?_⟩
        simp [hcond.1, hcond.2.1, hcond.2.2.1, hcond.2.2.2]
      · intro _
        rfl
    · rw [ih]
      constructor
      · rintro ⟨n, hn⟩
        exact ⟨n + 1, by simpa using hn⟩
      · rintro ⟨n, hn⟩
        cases n with
        | zero =>
          exfalso
          simp only [List.drop_zero] at hn
          simp only [List.take_succ_cons, List.take_zero, List.cons.injEq, and_true] at hn
          exact hcond ⟨hn.1, hn.2.1, hn.2.2.1, hn.2.2.2⟩
        | succ n =>
          exact ⟨n, by simpa using hn⟩

/-- C8, counterexample to the claim as stated: on an IPv4 table whose single
entry line has state field 0A but contains the byte sequence space 01 space
in a later column, the implementation counts one established connection
although no entry has state field equal to the ESTABLISHED code. -/
theorem c8_counterexample :
    getNetworkConnections "hdr\n0: A B 0A C 01 D\n" none = 1 ∧
    specEstablishedConnections "hdr\n0: A B 0A C 01 D\n" none = 0 := by
  constructor <;> decide

/-- C8, amended: getNetworkConnections returns the number of
newline-terminated lines of the IPv4 table containing the four-character
sequence space, 01, space (the rendering of the ESTABLISHED state code),
plus the same count for the IPv6 table when it is readable; lines in which
the sequence comes from another column, and header lines containing it,
are counted as well, so the result coincides with the count of ESTABLISHED
entries only on well-formed kernel tables. -/
theorem c8_amended (tcp4 : String) (tcp6 : Option String) :
    getNetworkConnections tcp4 tcp6 =
      (splitNl tcp4.data).countP lineHas01 +
        (match tcp6 with
         | some data6 => (splitNl data6.data).countP lineHas01
         | none => 0) ∧
    (∀ l : List Char, lineHas01 l = true ↔
       ∃ n, (l.drop n).take 4 = [' ', '0', '1', ' ']) := by
  constructor
  · have h4 := countEst_eq tcp4.data [] (List.not_mem_nil _)
    rw [List.nil_append] at h4
    cases tcp6 with
    | none =>
      show countEst [] tcp4.data + 0 = (splitNl tcp4.data).countP lineHas01 + 0
      rw [h4]
    | some s =>
      have h6 := countEst_eq s.data [] (List.not_mem_nil _)
      rw [List.nil_append] at h6
      show countEst [] tcp4.data + countEst [] s.data =
        (splitNl tcp4.data).countP lineHas01 + (splitNl s.data).countP lineHas01
      rw [h4, h6]
  · exact lineHas01_iff

end Probe
